import Mathlib

/-!
Verification of the Teal/C9 distributed runtime against its specification.

The development shallowly embeds the two Python modules under scrutiny:

* `C9c` — `src/c9c/runtime/aws.py`: the AWS controller (`get_or_wait`,
  `run_waiting_machine`, `run_existing`) over persistent session state, plus
  the chain-resolve algorithm (which lives in `c9c/machine.py`, not in the
  sources provided; it is modelled from the specification, section 4.5).
* `TealAws` — `src/teal_lang/executors/awslambda.py`: the Lambda entry
  points (`resume`, `new`, `set_session_exe`, `getoutput`) and the
  `Invoker`.

Machine integers are `Nat`/`Int`; fallible Python code returns
`Except PyExc`; external collaborators (the DynamoDB model, the Teal
compiler, the VM `run` method, lambda transport) are passed in as explicit
oracle parameters.  Python name resolution at module scope is modelled
explicitly (a list of the names a module binds) because two claims hinge on
the name `Session` being unbound.
-/

/-- Run-time values (spec section 3, "Value"), doubling as the JSON values
appearing in entry-point response bodies. -/
inductive Val where
  | i (n : Int)
  | s (str : String)
  | b (val : Bool)
  | null
  | arr (vs : List Val)
deriving Repr

mutual

/-- Decidable (structural) equality on values. -/
def Val.decEq : (a b : Val) → Decidable (a = b)
  | .i x, .i y => decidable_of_iff (x = y) (by simp)
  | .s x, .s y => decidable_of_iff (x = y) (by simp)
  | .b x, .b y => decidable_of_iff (x = y) (by simp)
  | .null, .null => .isTrue rfl
  | .arr xs, .arr ys =>
    match Val.decEqList xs ys with
    | .isTrue h => .isTrue (by rw [h])
    | .isFalse h => .isFalse (by simp [h])
  | .i _, .s _ => .isFalse (by simp)
  | .i _, .b _ => .isFalse (by simp)
  | .i _, .null => .isFalse (by simp)
  | .i _, .arr _ => .isFalse (by simp)
  | .s _, .i _ => .isFalse (by simp)
  | .s _, .b _ => .isFalse (by simp)
  | .s _, .null => .isFalse (by simp)
  | .s _, .arr _ => .isFalse (by simp)
  | .b _, .i _ => .isFalse (by simp)
  | .b _, .s _ => .isFalse (by simp)
  | .b _, .null => .isFalse (by simp)
  | .b _, .arr _ => .isFalse (by simp)
  | .null, .i _ => .isFalse (by simp)
  | .null, .s _ => .isFalse (by simp)
  | .null, .b _ => .isFalse (by simp)
  | .null, .arr _ => .isFalse (by simp)
  | .arr _, .i _ => .isFalse (by simp)
  | .arr _, .s _ => .isFalse (by simp)
  | .arr _, .b _ => .isFalse (by simp)
  | .arr _, .null => .isFalse (by simp)

/-- Decidable equality on lists of values. -/
def Val.decEqList : (xs ys : List Val) → Decidable (xs = ys)
  | [], [] => .isTrue rfl
  | [], _ :: _ => .isFalse (by simp)
  | _ :: _, [] => .isFalse (by simp)
  | x :: xs, y :: ys =>
    match Val.decEq x y, Val.decEqList xs ys with
    | .isTrue h1, .isTrue h2 => .isTrue (by rw [h1, h2])
    | .isFalse h1, _ => .isFalse (by simp [h1])
    | _, .isFalse h2 => .isFalse (by simp [h2])

end

instance : DecidableEq Val := Val.decEq

/-- Python exceptions relevant to the embedded code. -/
inductive PyExc where
  | nameError (n : String)
  | doesNotExist
  | updateError
  | other (msg : String)
deriving Repr, DecidableEq

/-- `str(exc)` for the modelled exceptions. -/
def pyStr : PyExc → String
  | .nameError n => "name " ++ n ++ " is not defined"
  | .doesNotExist => "DoesNotExist"
  | .updateError => "UpdateError"
  | .other msg => msg

/-- Python name lookup at module scope: succeeds iff the module binds the
name (none of the names we care about is a Python builtin). -/
def resolveName (globals : List String) (n : String) : Except PyExc Unit :=
  if n ∈ globals then .ok () else .error (.nameError n)

/-- Does an exception match the class `Session.UpdateError`? -/
def PyExc.isUpdateError : PyExc → Bool
  | .updateError => true
  | _ => false

/-- Does an exception match the class `Session.DoesNotExist`? -/
def PyExc.isDoesNotExist : PyExc → Bool
  | .doesNotExist => true
  | _ => false

/-- `None` maps to JSON `null`; any other value to itself. -/
def valOfOpt : Option Val → Val
  | none => .null
  | some v => v

/-- A string-or-null JSON value. -/
def valOfOptStr : Option String → Val
  | none => .null
  | some t => .s t

/-- Python falsiness of an optional string (`if not x`): absent or empty. -/
def strFalsy : Option String → Bool
  | none => true
  | some t => t == ""

/-- `try: body except root.Attr as e: handler(e)`.  Python evaluates the
except-clause expression only once an exception is live; if `root` is an
unbound name, that evaluation itself raises `NameError`, replacing the
original exception. -/
def tryExcept (globals : List String) (root : String) (matchesClass : PyExc → Bool)
    (body : Except PyExc α) (handler : PyExc → Except PyExc α) : Except PyExc α :=
  match body with
  | .ok a => .ok a
  | .error e =>
    match resolveName globals root with
    | .error ne => .error ne
    | .ok _ => if matchesClass e then handler e else .error e

namespace C9c

/-- `aws_db.ContinuationMap`: a waiter record on a future. -/
structure ContinuationMap where
  machine_id : Nat
  offset : Nat
deriving Repr, DecidableEq

/-- `aws_db.FutureMap`: persistent future state. -/
structure FutureMap where
  resolved : Bool
  value : Option Val
  chain : Option Nat
  continuations : List ContinuationMap
deriving Repr, DecidableEq

/-- `c9c.state.State`, restricted to the fields the claims touch.
Modelled from the spec: the `State` class is not among the provided
sources; spec section 4.2 gives it a data stack with "set at an absolute
offset", an instruction pointer and a stopped flag. -/
structure State where
  ip : Nat
  ds : List Val
  stopped : Bool
deriving Repr, DecidableEq

/-- Modelled from the spec: `State.ds_set` writes a value at an absolute
data-stack offset (spec section 4.2). -/
def State.ds_set (st : State) (offset : Nat) (v : Val) : State :=
  { st with ds := st.ds.set offset v }

/-- `aws_db.MachineMap`: persistent machine (thread) record. -/
structure MachineMap where
  machine_id : Nat
  future_fk : Nat
  is_top_level : Bool
  state : State
deriving Repr, DecidableEq

/-- The persistent session: machines and futures are dense lists indexed by
`machine_id` / future id, plus the finished flag and result. -/
structure SessionData where
  session_id : String
  futures : List FutureMap
  machines : List MachineMap
  finished : Bool
  result : Option Val
deriving Repr, DecidableEq

/-- `AwsController.get_or_wait` (aws.py:217-227).  The whole body runs
under the session lock (`with_self_lock`), so it is a single atomic step
on `SessionData`.  If the future is resolved, return `(true, value)` and
leave the state alone; otherwise append the `(machine_id, offset)`
continuation and return `(false, none)`. -/
def get_or_wait (s : SessionData) (this_machine_id fid offset : Nat) :
    (Bool × Option Val) × SessionData :=
  match s.futures[fid]? with
  | none => ((false, none), s)
  | some f =>
    if f.resolved then ((true, f.value), s)
    else
      let f' := { f with continuations := f.continuations ++ [⟨this_machine_id, offset⟩] }
      ((false, none), { s with futures := s.futures.set fid f' })

/-- Apply an update to machine `machine_id` of the session. -/
def updateMachine (s : SessionData) (machine_id : Nat) (f : MachineMap → MachineMap) :
    SessionData :=
  match s.machines[machine_id]? with
  | none => s
  | some m => { s with machines := s.machines.set machine_id (f m) }

/-- `AwsController.run_waiting_machine` (aws.py:250-256): under the lock,
write `v` into the machine's data stack at `offset`, clear its stopped
flag, then dispatch it asynchronously (`_run_machine_async`).  The second
component is the machine id handed to the dispatcher. -/
def run_waiting_machine (s : SessionData) (machine_id offset : Nat) (v : Val) :
    SessionData × Nat :=
  (updateMachine s machine_id (fun m =>
      { m with state := { m.state.ds_set offset v with stopped := false } }),
   machine_id)

/-- Step 3 of chain-resolve: schedule every continuation of a resolving
future via `run_waiting_machine`, in order, accumulating the dispatched
machine ids. -/
def scheduleContinuations : SessionData → List ContinuationMap → Val → SessionData × List Nat
  | s, [], _ => (s, [])
  | s, c :: cs, v =>
    let r := run_waiting_machine s c.machine_id c.offset v
    let rest := scheduleContinuations r.1 cs v
    (rest.1, r.2 :: rest.2)

/-- Step 2 of chain-resolve: overwrite future `fid` (previously `f`) as
resolved with value `v`, its continuations consumed. -/
def setResolved (s : SessionData) (fid : Nat) (f : FutureMap) (v : Val) : SessionData :=
  { s with futures :=
      s.futures.set fid { f with resolved := true, value := some v, continuations := [] } }

/-- Step 5 of chain-resolve: if the resolving future owns the top-level
machine, mark the session finished with the value. -/
def markFinishedIfTopLevel (s : SessionData) (fid : Nat) (v : Val) : SessionData :=
  if s.machines.any (fun m => m.is_top_level && m.future_fk == fid) then
    { s with finished := true, result := some v }
  else s

/-- Modelled from the spec: `chain_resolve` lives in `c9c/machine.py`,
which is not among the provided sources; spec section 4.5 gives the
algorithm.  Under the session lock: a resolved future is a protocol error
(`FutureViolation`), except that a chain target already resolved with the
same value is tolerated (`tolerant = true` on recursive calls only); an
unresolved future gets its value and resolved flag set and its
continuations consumed and scheduled; then the chain target, if any, is
resolved recursively; finally the session is marked finished if the future
owns the top-level machine.  `fuel` bounds chain depth.  Returns the new
session state and the machine ids dispatched, in order. -/
def chain_resolve : Nat → Bool → SessionData → Nat → Val →
    Except String (SessionData × List Nat)
  | 0, _, _, _, _ => .error "chain_resolve: out of fuel"
  | fuel+1, tolerant, s, fid, v =>
    match s.futures[fid]? with
    | none => .error "chain_resolve: no such future"
    | some f =>
      if f.resolved then
        if tolerant = true ∧ f.value = some v then .ok (s, [])
        else .error "FutureViolation"
      else
        let s1 := setResolved s fid f v
        let sd := scheduleContinuations s1 f.continuations v
        match f.chain with
        | none => .ok (markFinishedIfTopLevel sd.1 fid v, sd.2)
        | some c =>
          match chain_resolve fuel true sd.1 c v with
          | .error e => .error e
          | .ok r => .ok (markFinishedIfTopLevel r.1 fid v, sd.2 ++ r.2)

/-- `AwsController.set_machine_result` resolves the current machine's
future (aws.py:230-234); the top-level entry is not tolerant of an
already-resolved future. -/
def resolve (fuel : Nat) (s : SessionData) (fid : Nat) (v : Val) :
    Except String (SessionData × List Nat) :=
  chain_resolve fuel false s fid v

/-- Walk the chain of forward pointers from `fid` and read the value at
the end of the chain (`fuel` bounds the walk). -/
def chainWalk (s : SessionData) : Nat → Nat → Option Val
  | _, 0 => none
  | fid, fuel+1 =>
    match s.futures[fid]? with
    | none => none
    | some f =>
      match f.chain with
      | some c => chainWalk s c fuel
      | none => f.value

/-- Spec invariant 2: a resolved future with a forward chain pointer holds
the same value as its chain target (which is itself resolved). -/
def chainConsistent (s : SessionData) : Prop :=
  ∀ (fid : Nat) (f : FutureMap) (c : Nat),
    s.futures[fid]? = some f → f.resolved = true → f.chain = some c →
    ∃ g : FutureMap, s.futures[c]? = some g ∧ g.resolved = true ∧ g.value = f.value

/-- The names bound at module scope of `c9c/runtime/aws.py`: its imports
(lines 53-68) and its top-level definitions.  `Session` is not among them,
and it is not a Python builtin either. -/
def c9cAwsGlobalNames : List String :=
  ["json", "time", "uuid", "traceback", "warnings", "wraps", "List", "Tuple",
   "boto3", "compiler", "C9Machine", "ChainedFuture", "Controller", "Probe",
   "State", "db", "ContinuationMap", "FutureMap", "MachineMap",
   "get_lambda_client", "AwsProbe", "AwsFuture", "with_self_lock",
   "AwsController", "run", "run_existing", "get_entrypoint"]

/-- `run_existing` (aws.py:326-331).  Its first statement evaluates
`Session.get(session_id)`, which begins with resolving the name `Session`
at module scope.  The remaining statements (load the session, build the
controller, run the machine) are modelled abstractly via `sessionGet`
because they are unreachable; the second component is the trace of
externally visible effects. -/
def run_existing (session_id : String) (machine_id : Nat)
    (sessionGet : Except PyExc SessionData) :
    Except PyExc Unit × List String :=
  match resolveName c9cAwsGlobalNames "Session" with
  | .error e => (.error e, [])
  | .ok _ =>
    match sessionGet with
    | .error e => (.error e, ["Session.get " ++ session_id])
    | .ok _ =>
      (.ok (), ["Session.get " ++ session_id, "run_machine " ++ toString machine_id])

end C9c

namespace TealAws

/-- The names bound at module scope of `teal_lang/executors/awslambda.py`:
its imports (lines 1-12) and its top-level definitions.  `Session` is not
among them (only `ddb_model` is imported, as `db`), and it is not a Python
builtin either. -/
def tealGlobalNames : List String :=
  ["json", "logging", "os", "time", "boto3", "botocore", "tealparser",
   "ddb_controller", "db", "TlMachine", "RESUME_FN_NAME", "LOG",
   "get_lambda_client", "Invoker", "success", "fail", "resume", "new_apigw",
   "new", "set_exe", "set_session_exe", "getoutput_apigw", "getoutput"]

/-- One machine (thread) record of a `ddb_model.Session`.  Modelled from
the spec: `ddb_model` is not among the provided sources; spec section 6
gives threads a stdout buffer and an exception slot, and section 4.4 has
`new_machine` record the entry function and arguments. -/
structure MachineData where
  fn_name : String
  args : List Val
  stdout : String
  exception : Option String
deriving Repr, DecidableEq

/-- A `ddb_model.Session` record.  Modelled from the spec (section 3,
"Session"): `ddb_model` is not among the provided sources. -/
structure Session where
  session_id : String
  executable : Option String
  machines : List MachineData
  finished : Bool
  result : Option Val
deriving Repr, DecidableEq

/-- Modelled from the spec: `ddb.DataController.finished` reads the
session finished flag (`ddb.py` is not among the provided sources). -/
def controllerFinished (s : Session) : Bool := s.finished

/-- Modelled from the spec: `ddb.DataController.result` reads the session
top-level result. -/
def controllerResult (s : Session) : Option Val := s.result

/-- Modelled from the spec: `DataController.new_machine` (spec section
4.4) allocates a thread (ids are dense) plus its owning future,
initialised to call `fn` with `args`.  Returns the new session state and
the new thread id. -/
def dc_new_machine (s : Session) (args : List Val) ( fn : String) : Session × Nat :=
  let m : MachineData := { fn_name := fn, args := args, stdout := "", exception := none }
  ({ s with machines := s.machines ++ [m] }, s.machines.length)

/-- `session.machines[vmid].exception = str(exc)` (under the session
lock). -/
def setMachineException (s : Session) (vmid : Nat) (msg : String) : Session :=
  match s.machines[vmid]? with
  | none => s
  | some m =>
    let m' := { m with exception := some msg }
    { s with machines := s.machines.set vmid m' }

/-- An entry-point response (`success`/`fail`, awslambda.py:60-86): status
code, base64 flag and the JSON body.  The constant CORS headers are
omitted. -/
structure HttpResp where
  statusCode : Nat
  isBase64Encoded : Bool
  body : List (String × Val)
deriving Repr, DecidableEq

/-- `success(code=200, **body_data)` (awslambda.py:60-71). -/
def success (code : Nat) (body_data : List (String × Val)) : HttpResp :=
  { statusCode := code, isBase64Encoded := false, body := body_data }

/-- `fail(msg, code=400, **body_data)` (awslambda.py:74-86). -/
def fail (msg : String) (code : Nat) (body_data : List (String × Val)) : HttpResp :=
  { statusCode := code, isBase64Encoded := false,
    body := ("message", Val.s msg) :: body_data }

/-- The result of one lambda transport invocation, as inspected by the
code (`res["StatusCode"]`, `"FunctionError" in res`). -/
structure InvokeResult where
  statusCode : Nat
  functionError : Bool
deriving Repr, DecidableEq

/-- `Invoker.invoke` (awslambda.py:38-54).  `attempts n` is the transport
outcome the n-th invocation attempt would have.  The code performs exactly
one attempt (the client is built with `retries={max_attempts: 0}`) and
raises on failure; the marker `TODO retry!` sits where a retry would go.
Returns the Python outcome and the number of attempts performed. -/
def Invoker.invoke (attempts : Nat → InvokeResult) : Except PyExc Unit × Nat :=
  let res := attempts 0
  if res.statusCode = 202 ∧ res.functionError = false then (.ok (), 1)
  else (.error (.other "Invoke lambda resume failed"), 1)

/-- `resume` (awslambda.py:89-112), after the session has been loaded:
run the VM on thread `vmid` (`runOutcome` is the outcome of
`TlMachine(vmid, invoker).run()`); an unhandled exception is written to
the thread's exception slot under the lock and re-raised; otherwise the
success body carries `session_id`, `vmid`, `finished` and `result`.
Returns the final session state together with the Python outcome. -/
def resume (session : Session) (vmid : Nat) (runOutcome : Except PyExc Unit) :
    Session × Except PyExc HttpResp :=
  match runOutcome with
  | .error exc => (setMachineException session vmid (pyStr exc), .error exc)
  | .ok _ =>
    (session,
     .ok (success 200
       [("session_id", Val.s session.session_id),
        ("vmid", Val.i vmid),
        ("finished", Val.b (controllerFinished session)),
        ("result", valOfOpt (controllerResult session))]))

/-- The `new` entry point's input object (awslambda.py:125-133); absent
fields are `none`. -/
structure NewEvent where
  function : Option String
  args : Option (List String)
  check_period : Option Nat
  wait_for_finish : Option Bool
  code : Option String
  timeout : Option Nat
deriving Repr, DecidableEq

/-- The middle of `new` (awslambda.py:151-166), once the optional code
block is past: parse the arguments, create the top-level machine
(`controller.new_machine(args, function, is_top_level=True)`) and run the
first VM cycle on it.  `Sum.inl` is an early return; `Sum.inr` carries
the session and the new thread id into the wait phase. -/
def newRunPhase (session1 : Session) (rawArgs : List String) ( fn : String)
    (readExp : String → Except PyExc Val) (runOutcome : Except PyExc Unit) :
    Sum (Session × Except PyExc HttpResp) (Session × Nat) :=
  match rawArgs.mapM readExp with
  | .error _ => .inl (session1, .ok (fail "Could not parse args" 400 []))
  | .ok args =>
    let mv := dc_new_machine session1 args fn
    match runOutcome with
    | .error exc =>
      .inl (setMachineException mv.1 mv.2 (pyStr exc),
            .ok (fail "Runtime error" 400 [("session_id", Val.s mv.1.session_id)]))
    | .ok _ => .inr mv

/-- The phase of `new` (awslambda.py:125-166) up to and including the
first VM cycle: read the event fields (with their defaults), optionally
compile and save the posted code, then hand over to `newRunPhase`.
`Sum.inl` is an early return (with the session state at that point);
`Sum.inr` carries the session and the new thread id into the wait phase.
Note the save failure path: the handler `except Session.UpdateError`
evaluates the unbound name `Session` and so raises `NameError` instead of
returning the "Error saving code" response. -/
def newSetup (event : NewEvent) (freshSession : Session)
    (compileExe : String → Except PyExc String)
    (saveOutcome : Except PyExc Unit)
    (readExp : String → Except PyExc Val)
    (runOutcome : Except PyExc Unit) :
    Sum (Session × Except PyExc HttpResp) (Session × Nat) :=
  let function := event.function.getD "main"
  let rawArgs := event.args.getD []
  let session := freshSession
  let afterCode : Sum (Session × Except PyExc HttpResp) Session :=
    match event.code with
    | none => .inr session
    | some c =>
      if c = "" then .inr session
      else
        match compileExe c with
        | .error exc =>
          .inl (session, .ok (fail ("Error compiling code:\n" ++ pyStr exc) 400 []))
        | .ok exeBytes =>
          let session1 := { session with executable := some exeBytes }
          match tryExcept tealGlobalNames "Session" PyExc.isUpdateError
                  (saveOutcome.map fun _ => (none : Option HttpResp))
                  (fun _ => .ok (some (fail "Error saving code" 400 []))) with
          | .error e => .inl (session1, .error e)
          | .ok (some r) => .inl (session1, .ok r)
          | .ok none => .inr session1
  match afterCode with
  | .inl done => .inl done
  | .inr session1 => newRunPhase session1 rawArgs function readExp runOutcome

/-- The polling loop of `new` (awslambda.py:168-173): check
`controller.finished` (the n-th check reads `finishedObs n`), sleep, and
give up once the wall-clock timeout elapses (`pollBudget` sleeps remain).
`true` means the loop observed `finished`; `false` means it timed out. -/
def waitLoop (finishedObs : Nat → Bool) : Nat → Nat → Bool
  | i, 0 => finishedObs i
  | i, budget+1 => if finishedObs i then true else waitLoop finishedObs (i+1) budget

/-- The tail of `new` (awslambda.py:168-180): optionally poll for
`finished`, returning the timeout failure if the budget runs out,
otherwise the success body (whose `finished`/`result` are fresh reads,
passed in as `finalFinished`/`finalResult`).  The session is only read
here, never written. -/
def newFinishPhase (session : Session) (vmid : Nat) ( wff : Bool)
    (finishedObs : Nat → Bool) (pollBudget : Nat)
    (finalFinished : Bool) (finalResult : Option Val) :
    Session × Except PyExc HttpResp :=
  let done : Session × Except PyExc HttpResp :=
    (session,
     .ok (success 200
       [("session_id", Val.s session.session_id),
        ("vmid", Val.i vmid),
        ("finished", Val.b finalFinished),
        ("result", valOfOpt finalResult)]))
  if wff then
    if waitLoop finishedObs 0 pollBudget then done
    else
      (session,
       .ok (fail "Timeout waiting for finish" 400
         [("session_id", Val.s session.session_id)]))
  else done

/-- The `new` entry point (awslambda.py:125-180): setup phase followed by
the wait phase. -/
def new (event : NewEvent) (freshSession : Session)
    (compileExe : String → Except PyExc String)
    (saveOutcome : Except PyExc Unit)
    (readExp : String → Except PyExc Val)
    (runOutcome : Except PyExc Unit)
    (finishedObs : Nat → Bool) (pollBudget : Nat)
    (finalFinished : Bool) (finalResult : Option Val) :
    Session × Except PyExc HttpResp :=
  match newSetup event freshSession compileExe saveOutcome readExp runOutcome with
  | .inl done => done
  | .inr sv =>
    newFinishPhase sv.1 sv.2 (event.wait_for_finish.getD true) finishedObs pollBudget
      finalFinished finalResult

/-- `set_session_exe` (awslambda.py:196-224).  `sessionGet` is the outcome
of `db.Session.get(session_id)`, `compileExe` of compiling the content,
`saveOutcome` of `session.save()`.  Both `except Session.DoesNotExist`
and `except Session.UpdateError` evaluate the unbound name `Session`. -/
def set_session_exe (session_id content : Option String)
    (sessionGet : Except PyExc Session)
    (compileExe : String → Except PyExc String)
    (saveOutcome : Except PyExc Unit) :
    Except PyExc HttpResp :=
  if strFalsy content then .ok (fail "No Teal code" 400 [])
  else if strFalsy session_id then .ok (fail "No session ID" 400 [])
  else
    match tryExcept tealGlobalNames "Session" PyExc.isDoesNotExist
            (sessionGet.map Sum.inl)
            (fun _ => .ok (Sum.inr (fail "Couldn\x27t find that session" 400 []))) with
    | .error e => .error e
    | .ok (.inr r) => .ok r
    | .ok (.inl _session) =>
      match compileExe (content.getD "") with
      | .error _ => .ok (fail "Error compiling code" 400 [])
      | .ok _exeBytes =>
        tryExcept tealGlobalNames "Session" PyExc.isUpdateError
          (saveOutcome.map fun _ =>
            success 200 [("message", Val.s "Executable set successfully")])
          (fun _ => .ok (fail "Error saving code" 400 []))

/-- `getoutput` (awslambda.py:237-254): one stdout string and one
string-or-null exception entry per machine, in machine order, plus an
empty events list. -/
def getoutput (session_id : Option String) (sessionGet : Except PyExc Session) :
    Except PyExc HttpResp :=
  if strFalsy session_id then .ok (fail "No session ID" 400 [])
  else
    match tryExcept tealGlobalNames "Session" PyExc.isDoesNotExist
            (sessionGet.map Sum.inl)
            (fun _ => .ok (Sum.inr (fail "Couldn\x27t find that session" 400 []))) with
    | .error e => .error e
    | .ok (.inr r) => .ok r
    | .ok (.inl session) =>
      .ok (success 200
        [("output", Val.arr (session.machines.map fun m => Val.s m.stdout)),
         ("exceptions", Val.arr (session.machines.map fun m => valOfOptStr m.exception)),
         ("events", Val.arr [])])

/-- The keys of a response body (empty for a raised exception). -/
def respKeys : Except PyExc HttpResp → List String
  | .ok r => r.body.map Prod.fst
  | .error _ => []

end TealAws

namespace C9c

/-- Machine `tid` holds `v` at data-stack offset `off` and is not stopped:
the waiter has received the resolved value and is runnable. -/
def waiterServed (s : SessionData) (tid off : Nat) (v : Val) : Prop :=
  ∃ m : MachineMap, s.machines[tid]? = some m ∧
    m.state.ds[off]? = some v ∧ m.state.stopped = false

/-- Future `fid` is resolved and holds the value `v`. -/
def resolvedWith (s : SessionData) (fid : Nat) (v : Val) : Prop :=
  ∃ g : FutureMap, s.futures[fid]? = some g ∧ g.resolved = true ∧ g.value = some v

end C9c

namespace Samples

/-- A session with one unresolved, chainless future and one machine whose
data stack has one slot. -/
def c9s : C9c.SessionData :=
  { session_id := "s0",
    futures := [{ resolved := false, value := none, chain := none, continuations := [] }],
    machines := [{ machine_id := 0, future_fk := 0, is_top_level := true,
                   state := { ip := 4, ds := [Val.null], stopped := true } }],
    finished := false, result := none }

/-- The future of `c9s`. -/
def c9fut : C9c.FutureMap :=
  { resolved := false, value := none, chain := none, continuations := [] }

/-- The machine of `c9s`. -/
def c9mach : C9c.MachineMap :=
  { machine_id := 0, future_fk := 0, is_top_level := true,
    state := { ip := 4, ds := [Val.null], stopped := true } }

/-- A `c9s`-like session whose future already carries one continuation. -/
def c9sWaiting : C9c.SessionData :=
  { c9s with futures :=
      [{ resolved := false, value := none, chain := none,
         continuations := [⟨0, 0⟩] }] }

/-- An empty fresh Teal session. -/
def freshSession0 : TealAws.Session :=
  { session_id := "sid0", executable := none, machines := [],
    finished := false, result := none }

/-- A Teal session with two machines carrying stdout and exception data. -/
def tealSession0 : TealAws.Session :=
  { session_id := "sid1", executable := none,
    machines :=
      [{ fn_name := "main", args := [], stdout := "out0", exception := none },
       { fn_name := "g", args := [Val.i 1], stdout := "out1", exception := some "boom" }],
    finished := false, result := none }

/-- A `new` event with every field absent. -/
def newEvent0 : TealAws.NewEvent :=
  { function := none, args := none, check_period := none,
    wait_for_finish := none, code := none, timeout := none }

/-- A `new` event posting code. -/
def newEventCode : TealAws.NewEvent :=
  { function := none, args := none, check_period := none,
    wait_for_finish := none, code := some "prog", timeout := none }

/-- A transport whose first invocation attempt fails with a 500 and whose
second attempt would succeed. -/
def flakyAttempts : Nat → TealAws.InvokeResult :=
  fun n => if n = 0 then ⟨500, false⟩ else ⟨202, false⟩

/-- The future of `c9sWaiting`: one recorded continuation `(0, 0)`. -/
def c9futWaiting : C9c.FutureMap :=
  { resolved := false, value := none, chain := none, continuations := [⟨0, 0⟩] }

/-- `c9sWaiting` after its future resolves with the value 7: the waiter
got 7 written at offset 0, was restarted, and the session finished. -/
def c9sResolved : C9c.SessionData :=
  { session_id := "s0",
    futures := [{ resolved := true, value := some (Val.i 7), chain := none,
                  continuations := [] }],
    machines := [{ machine_id := 0, future_fk := 0, is_top_level := true,
                   state := { ip := 4, ds := [Val.i 7], stopped := false } }],
    finished := true, result := some (Val.i 7) }

/-- `c9s` after its (continuation-free) future resolves with the value 7:
no machine is touched, the session is finished. -/
def c9sResolvedNoWait : C9c.SessionData :=
  { session_id := "s0",
    futures := [{ resolved := true, value := some (Val.i 7), chain := none,
                  continuations := [] }],
    machines := [{ machine_id := 0, future_fk := 0, is_top_level := true,
                   state := { ip := 4, ds := [Val.null], stopped := true } }],
    finished := true, result := some (Val.i 7) }

/-- The top-level machine a default `new` call creates. -/
def newMachine0 : TealAws.MachineData :=
  { fn_name := "main", args := [], stdout := "", exception := none }

/-- `freshSession0` once `new` has allocated the top-level machine. -/
def freshSession0Run : TealAws.Session :=
  { freshSession0 with machines := [newMachine0] }

end Samples

/-! ## Supporting lemmas -/

namespace C9c

theorem rwm_futures (s : SessionData) (a b : Nat) (v : Val) :
    (run_waiting_machine s a b v).1.futures = s.futures := by
  simp only [run_waiting_machine, updateMachine]
  split <;> rfl

theorem markFinished_machines (s : SessionData) (fid : Nat) (v : Val) :
    (markFinishedIfTopLevel s fid v).machines = s.machines := by
  simp only [markFinishedIfTopLevel]
  split <;> rfl

theorem markFinished_futures (s : SessionData) (fid : Nat) (v : Val) :
    (markFinishedIfTopLevel s fid v).futures = s.futures := by
  simp only [markFinishedIfTopLevel]
  split <;> rfl

theorem rwm_machines_getElem (s : SessionData) (a b : Nat) (v : Val) (j : Nat) :
    (run_waiting_machine s a b v).1.machines[j]? =
      if j = a then
        (s.machines[j]?).map
          (fun m => { m with state := { m.state.ds_set b v with stopped := false } })
      else s.machines[j]? := by
  simp only [run_waiting_machine, updateMachine]
  by_cases hj : j = a
  · subst hj
    cases hm : s.machines[j]? with
    | none => simp [hm]
    | some m =>
      have hlt : j < s.machines.length := (List.getElem?_eq_some_iff.mp hm).1
      simp [hm, List.getElem?_set_self hlt]
  · cases hm : s.machines[a]? with
    | none => simp [hm, hj]
    | some m => simp [hm, hj, List.getElem?_set_ne (fun h => hj h.symm)]

theorem served_of_machines_eq {s s' : SessionData} (h : s'.machines = s.machines)
    {tid off : Nat} {v : Val} (hs : waiterServed s tid off v) :
    waiterServed s' tid off v := by
  obtain ⟨m, hm, h1, h2⟩ := hs
  exact ⟨m, by rw [h]; exact hm, h1, h2⟩

theorem resolvedWith_of_futures_eq {s s' : SessionData} (h : s'.futures = s.futures)
    {fid : Nat} {v : Val} (hs : resolvedWith s fid v) :
    resolvedWith s' fid v := by
  obtain ⟨g, hg, h1, h2⟩ := hs
  exact ⟨g, by rw [h]; exact hg, h1, h2⟩

theorem rwm_preserves_served {s : SessionData} {tid off : Nat} {v : Val}
    (h : waiterServed s tid off v) (a b : Nat) :
    waiterServed (run_waiting_machine s a b v).1 tid off v := by
  obtain ⟨m, hm, hds, hstop⟩ := h
  by_cases hj : tid = a
  · subst hj
    refine ⟨{ m with state := { m.state.ds_set b v with stopped := false } }, ?_, ?_, rfl⟩
    · rw [rwm_machines_getElem, if_pos rfl, hm]; rfl
    · show (m.state.ds.set b v)[off]? = some v
      by_cases hb : b = off
      · subst hb
        have hlt : b < m.state.ds.length := (List.getElem?_eq_some_iff.mp hds).1
        exact List.getElem?_set_self hlt
      · rw [List.getElem?_set_ne hb]; exact hds
  · exact ⟨m, by rw [rwm_machines_getElem, if_neg hj]; exact hm, hds, hstop⟩

theorem rwm_establishes_served (s : SessionData) (tid off : Nat) (v : Val)
    (m : MachineMap) (hm : s.machines[tid]? = some m)
    (hoff : off < m.state.ds.length) :
    waiterServed (run_waiting_machine s tid off v).1 tid off v := by
  refine ⟨{ m with state := { m.state.ds_set off v with stopped := false } }, ?_, ?_, rfl⟩
  · rw [rwm_machines_getElem, if_pos rfl, hm]; rfl
  · show (m.state.ds.set off v)[off]? = some v
    exact List.getElem?_set_self hoff

theorem rwm_preserves_bounds {s : SessionData} {tid off : Nat}
    (h : ∃ m : MachineMap, s.machines[tid]? = some m ∧ off < m.state.ds.length)
    (a b : Nat) (v : Val) :
    ∃ m : MachineMap, (run_waiting_machine s a b v).1.machines[tid]? = some m ∧
      off < m.state.ds.length := by
  obtain ⟨m, hm, hoff⟩ := h
  rw [rwm_machines_getElem]
  by_cases hj : tid = a
  · subst hj
    rw [if_pos rfl, hm]
    exact ⟨_, rfl, by simpa [State.ds_set] using hoff⟩
  · rw [if_neg hj]
    exact ⟨m, hm, hoff⟩

theorem schedule_futures (v : Val) :
    ∀ (conts : List ContinuationMap) (s : SessionData),
      (scheduleContinuations s conts v).1.futures = s.futures := by
  intro conts
  induction conts with
  | nil => intro s; rfl
  | cons c cs ih =>
    intro s
    show (scheduleContinuations (run_waiting_machine s c.machine_id c.offset v).1 cs v).1.futures
      = s.futures
    rw [ih, rwm_futures]

theorem schedule_preserves_served (v : Val) :
    ∀ (conts : List ContinuationMap) (s : SessionData) {tid off : Nat},
      waiterServed s tid off v →
      waiterServed (scheduleContinuations s conts v).1 tid off v := by
  intro conts
  induction conts with
  | nil => intro s tid off h; exact h
  | cons c cs ih =>
    intro s tid off h
    exact ih _ (rwm_preserves_served h _ _)

theorem schedule_serves (v : Val) :
    ∀ (conts : List ContinuationMap) (s : SessionData) (tid off : Nat),
      (⟨tid, off⟩ : ContinuationMap) ∈ conts →
      (∃ m : MachineMap, s.machines[tid]? = some m ∧ off < m.state.ds.length) →
      waiterServed (scheduleContinuations s conts v).1 tid off v ∧
      tid ∈ (scheduleContinuations s conts v).2 := by
  intro conts
  induction conts with
  | nil => intro s tid off hmem; cases hmem
  | cons c cs ih =>
    intro s tid off hmem hbound
    rcases List.mem_cons.mp hmem with hc | hmem'
    · obtain ⟨m, hm, hoff⟩ := hbound
      have hcm : c.machine_id = tid := by rw [← hc]
      have hco : c.offset = off := by rw [← hc]
      constructor
      · show waiterServed
          (scheduleContinuations (run_waiting_machine s c.machine_id c.offset v).1 cs v).1
          tid off v
        apply schedule_preserves_served
        rw [hcm, hco]
        exact rwm_establishes_served s tid off v m hm hoff
      · show tid ∈ c.machine_id ::
          (scheduleContinuations (run_waiting_machine s c.machine_id c.offset v).1 cs v).2
        rw [hcm]
        exact List.mem_cons_self _ _
    · have hbound' := rwm_preserves_bounds hbound c.machine_id c.offset v
      obtain ⟨h1, h2⟩ := ih _ tid off hmem' hbound'
      exact ⟨h1, List.mem_cons_of_mem _ h2⟩

end C9c


namespace C9c

theorem setResolved_machines (s : SessionData) (fid : Nat) (f : FutureMap) (v : Val) :
    (setResolved s fid f v).machines = s.machines := rfl

theorem setResolved_getElem_self (s : SessionData) (fid : Nat) (f : FutureMap) (v : Val)
    (hlt : fid < s.futures.length) :
    (setResolved s fid f v).futures[fid]?
      = some { f with resolved := true, value := some v, continuations := [] } := by
  show (s.futures.set fid _)[fid]? = _
  rw [List.getElem?_set_self hlt]

theorem setResolved_getElem_ne (s : SessionData) (fid : Nat) (f : FutureMap) (v : Val)
    (j : Nat) (hne : fid ≠ j) :
    (setResolved s fid f v).futures[j]? = s.futures[j]? := by
  show (s.futures.set fid _)[j]? = _
  rw [List.getElem?_set_ne hne]

theorem chain_resolve_preserves_served (v : Val) :
    ∀ (fuel : Nat) (tol : Bool) (s : SessionData) (fid : Nat)
      (s' : SessionData) (d : List Nat) (tid off : Nat),
      chain_resolve fuel tol s fid v = .ok (s', d) →
      waiterServed s tid off v → waiterServed s' tid off v := by
  intro fuel
  induction fuel with
  | zero =>
    intro tol s fid s' d tid off h
    simp [chain_resolve] at h
  | succ n ih =>
    intro tol s fid s' d tid off h hserved
    simp only [chain_resolve] at h
    rcases hf : s.futures[fid]? with _ | f
    · simp [hf] at h
    · simp only [hf] at h
      by_cases hfr : f.resolved = true
      · rw [if_pos hfr] at h
        by_cases hcond : tol = true ∧ f.value = some v
        · rw [if_pos hcond] at h
          simp only [Except.ok.injEq, Prod.mk.injEq] at h
          obtain ⟨h1, h2⟩ := h
          subst h1
          exact hserved
        · rw [if_neg hcond] at h
          simp at h
      · rw [if_neg hfr] at h
        rcases hch : f.chain with _ | c
        · simp only [hch, Except.ok.injEq, Prod.mk.injEq] at h
          obtain ⟨h1, h2⟩ := h
          subst h1
          refine served_of_machines_eq (markFinished_machines _ _ _) ?_
          exact schedule_preserves_served v f.continuations _ hserved
        · simp only [hch] at h
          split at h
          · simp at h
          · rename_i r heq
            simp only [Except.ok.injEq, Prod.mk.injEq] at h
            obtain ⟨h1, h2⟩ := h
            subst h1
            refine served_of_machines_eq (markFinished_machines _ _ _) ?_
            apply ih true _ c _ _ tid off heq
            exact schedule_preserves_served v f.continuations _ hserved

theorem chain_resolve_preserves_resolvedWith (v : Val) :
    ∀ (fuel : Nat) (tol : Bool) (s : SessionData) (cid : Nat)
      (s' : SessionData) (d : List Nat) (fid : Nat),
      chain_resolve fuel tol s cid v = .ok (s', d) →
      resolvedWith s fid v → resolvedWith s' fid v := by
  intro fuel
  induction fuel with
  | zero =>
    intro tol s cid s' d fid h
    simp [chain_resolve] at h
  | succ n ih =>
    intro tol s cid s' d fid h hres
    simp only [chain_resolve] at h
    rcases hf : s.futures[cid]? with _ | f
    · simp [hf] at h
    · simp only [hf] at h
      by_cases hfr : f.resolved = true
      · rw [if_pos hfr] at h
        by_cases hcond : tol = true ∧ f.value = some v
        · rw [if_pos hcond] at h
          simp only [Except.ok.injEq, Prod.mk.injEq] at h
          obtain ⟨h1, h2⟩ := h
          subst h1
          exact hres
        · rw [if_neg hcond] at h
          simp at h
      · rw [if_neg hfr] at h
        have hne : cid ≠ fid := by
          intro heq
          subst heq
          obtain ⟨g, hg, hgres, _⟩ := hres
          rw [hf] at hg
          injection hg with hg
          rw [← hg] at hgres
          exact hfr hgres
        have hres1 : resolvedWith (setResolved s cid f v) fid v := by
          obtain ⟨g, hg, h1, h2⟩ := hres
          exact ⟨g, by rw [setResolved_getElem_ne s cid f v fid hne]; exact hg, h1, h2⟩
        rcases hch : f.chain with _ | c
        · simp only [hch, Except.ok.injEq, Prod.mk.injEq] at h
          obtain ⟨h1, h2⟩ := h
          subst h1
          refine resolvedWith_of_futures_eq (markFinished_futures _ _ _) ?_
          refine resolvedWith_of_futures_eq (schedule_futures v f.continuations _) ?_
          exact hres1
        · simp only [hch] at h
          split at h
          · simp at h
          · rename_i r heq
            simp only [Except.ok.injEq, Prod.mk.injEq] at h
            obtain ⟨h1, h2⟩ := h
            subst h1
            refine resolvedWith_of_futures_eq (markFinished_futures _ _ _) ?_
            apply ih true _ c _ _ fid heq
            refine resolvedWith_of_futures_eq (schedule_futures v f.continuations _) ?_
            exact hres1

theorem chain_resolve_establishes_resolvedWith (v : Val) (fuel : Nat) (tol : Bool)
    (s : SessionData) (fid : Nat) (s' : SessionData) (d : List Nat)
    (h : chain_resolve fuel tol s fid v = .ok (s', d)) :
    resolvedWith s' fid v := by
  cases fuel with
  | zero => simp [chain_resolve] at h
  | succ n =>
    simp only [chain_resolve] at h
    rcases hf : s.futures[fid]? with _ | f
    · simp [hf] at h
    · simp only [hf] at h
      by_cases hfr : f.resolved = true
      · rw [if_pos hfr] at h
        by_cases hcond : tol = true ∧ f.value = some v
        · rw [if_pos hcond] at h
          simp only [Except.ok.injEq, Prod.mk.injEq] at h
          obtain ⟨h1, h2⟩ := h
          subst h1
          exact ⟨f, hf, hfr, hcond.2⟩
        · rw [if_neg hcond] at h
          simp at h
      · rw [if_neg hfr] at h
        have hlt : fid < s.futures.length := (List.getElem?_eq_some_iff.mp hf).1
        have hres1 : resolvedWith (setResolved s fid f v) fid v :=
          ⟨_, setResolved_getElem_self s fid f v hlt, rfl, rfl⟩
        rcases hch : f.chain with _ | c
        · simp only [hch, Except.ok.injEq, Prod.mk.injEq] at h
          obtain ⟨h1, h2⟩ := h
          subst h1
          refine resolvedWith_of_futures_eq (markFinished_futures _ _ _) ?_
          refine resolvedWith_of_futures_eq (schedule_futures v f.continuations _) ?_
          exact hres1
        · simp only [hch] at h
          split at h
          · simp at h
          · rename_i r heq
            simp only [Except.ok.injEq, Prod.mk.injEq] at h
            obtain ⟨h1, h2⟩ := h
            subst h1
            refine resolvedWith_of_futures_eq (markFinished_futures _ _ _) ?_
            apply chain_resolve_preserves_resolvedWith v n true _ c _ _ fid heq
            refine resolvedWith_of_futures_eq (schedule_futures v f.continuations _) ?_
            exact hres1

theorem resolve_serves_waiter (v : Val) (fuel : Nat)
    (s : SessionData) (fid : Nat) (s' : SessionData) (d : List Nat)
    (f : FutureMap) (tid off : Nat)
    (hf : s.futures[fid]? = some f)
    (hmem : (⟨tid, off⟩ : ContinuationMap) ∈ f.continuations)
    (hbound : ∃ m : MachineMap, s.machines[tid]? = some m ∧ off < m.state.ds.length)
    (h : chain_resolve fuel false s fid v = .ok (s', d)) :
    waiterServed s' tid off v ∧ tid ∈ d := by
  cases fuel with
  | zero => simp [chain_resolve] at h
  | succ n =>
    simp only [chain_resolve, hf] at h
    by_cases hfr : f.resolved = true
    · rw [if_pos hfr] at h
      rw [if_neg (by simp : ¬(false = true ∧ f.value = some v))] at h
      simp at h
    · rw [if_neg hfr] at h
      have hserved0 :
          waiterServed (scheduleContinuations (setResolved s fid f v) f.continuations v).1
            tid off v ∧
          tid ∈ (scheduleContinuations (setResolved s fid f v) f.continuations v).2 := by
        apply schedule_serves v f.continuations _ tid off hmem
        exact hbound
      rcases hch : f.chain with _ | c
      · simp only [hch, Except.ok.injEq, Prod.mk.injEq] at h
        obtain ⟨h1, h2⟩ := h
        subst h1
        subst h2
        exact ⟨served_of_machines_eq (markFinished_machines _ _ _) hserved0.1, hserved0.2⟩
      · simp only [hch] at h
        split at h
        · simp at h
        · rename_i r heq
          simp only [Except.ok.injEq, Prod.mk.injEq] at h
          obtain ⟨h1, h2⟩ := h
          subst h1
          subst h2
          constructor
          · refine served_of_machines_eq (markFinished_machines _ _ _) ?_
            exact chain_resolve_preserves_served v n true _ c _ _ tid off heq hserved0.1
          · exact List.mem_append_left _ hserved0.2

theorem chainWalk_agrees {s : SessionData} (hcc : chainConsistent s) :
    ∀ (fuel fid : Nat) (f : FutureMap) (w : Val),
      s.futures[fid]? = some f → f.resolved = true →
      chainWalk s fid fuel = some w → f.value = some w := by
  intro fuel
  induction fuel with
  | zero =>
    intro fid f w hf hres hw
    simp [chainWalk] at hw
  | succ n ih =>
    intro fid f w hf hres hw
    simp only [chainWalk, hf] at hw
    rcases hch : f.chain with _ | c
    · rw [hch] at hw
      exact hw
    · rw [hch] at hw
      obtain ⟨g, hg, hgres, hgval⟩ := hcc fid f c hf hres hch
      have hgw := ih c g w hg hgres hw
      rw [← hgval]
      exact hgw

end C9c

/-! ## Claim theorems -/

theorem session_not_bound_teal : "Session" ∉ TealAws.tealGlobalNames := by decide

theorem session_not_bound_c9c : "Session" ∉ C9c.c9cAwsGlobalNames := by decide

theorem resolveName_session_teal :
    resolveName TealAws.tealGlobalNames "Session" = .error (.nameError "Session") := by
  simp [resolveName, session_not_bound_teal]

theorem resolveName_session_c9c :
    resolveName C9c.c9cAwsGlobalNames "Session" = .error (.nameError "Session") := by
  simp [resolveName, session_not_bound_c9c]

/-- C9: in the c9c AWS runtime module the name `Session` is never defined
or imported, so every call to `run_existing` raises `NameError` at the
`Session.get` lookup; no session is loaded and no machine is run (the
effect trace is empty), whatever the inputs and whatever the database
would have answered. -/
theorem C9_run_existing_always_name_error (session_id : String) (machine_id : Nat)
    (sessionGet : Except PyExc C9c.SessionData) :
    C9c.run_existing session_id machine_id sessionGet
      = (.error (.nameError "Session"), []) := by
  simp [C9c.run_existing, resolveName_session_c9c]

/-- C7 (divergence from the claim): on a transport failure of the first
invocation attempt, `Invoker.invoke` raises after exactly one attempt —
it performs no retry even though a second attempt would have succeeded
(the code marks the spot with `TODO retry!`). -/
theorem C7_invoke_raises_after_one_attempt :
    (TealAws.Invoker.invoke Samples.flakyAttempts).1
        = .error (.other "Invoke lambda resume failed") ∧
    (TealAws.Invoker.invoke Samples.flakyAttempts).2 = 1 ∧
    Samples.flakyAttempts 1 = { statusCode := 202, functionError := false } :=
  ⟨rfl, rfl, rfl⟩

/-- C5 (divergence at the failing input): with content and session id both
present, a session lookup that raises `Session.DoesNotExist` makes
`set_session_exe` raise `NameError` for the unbound name `Session` instead
of returning the lookup-failure response, and a save that raises
`Session.UpdateError` likewise raises `NameError` instead of returning the
save-failure response. -/
theorem C5_set_session_exe_raises_name_error :
    TealAws.set_session_exe (some "s1") (some "prog") (.error .doesNotExist)
        (fun _ => .ok "exe") (.ok ())
      = .error (.nameError "Session") ∧
    TealAws.set_session_exe (some "s1") (some "prog") (.ok Samples.tealSession0)
        (fun _ => .ok "exe") (.error .updateError)
      = .error (.nameError "Session") := by
  constructor <;> rfl

/-- C10: `Session` is unbound at module scope of the teal_lang Lambda
entry-point module (only `ddb_model` is imported, as `db`), so whenever
the session lookup raises inside `set_session_exe` or `getoutput`, or the
session save raises inside `new`, evaluating the except clause raises
`NameError`; the lookup-failure and save-failure responses are never
returned. -/
theorem C10_session_unbound_raises_name_error
    (sid c : String) (hsid : sid ≠ "") (hc : c ≠ "")
    (eLookup eSave : PyExc)
    (compileExe : String → Except PyExc String)
    (saveOutcome : Except PyExc Unit)
    (exeBytes : String) (hcompile : compileExe c = .ok exeBytes)
    (freshSession : TealAws.Session)
    (readExp : String → Except PyExc Val) (runOutcome : Except PyExc Unit)
    (finishedObs : Nat → Bool) (pollBudget : Nat)
    (finalFinished : Bool) (finalResult : Option Val)
    (event : TealAws.NewEvent) (hcode : event.code = some c) :
    TealAws.set_session_exe (some sid) (some c) (.error eLookup) compileExe saveOutcome
      = .error (.nameError "Session") ∧
    TealAws.getoutput (some sid) (.error eLookup) = .error (.nameError "Session") ∧
    TealAws.new event freshSession compileExe (.error eSave) readExp runOutcome
        finishedObs pollBudget finalFinished finalResult
      = ({ freshSession with executable := some exeBytes },
         .error (.nameError "Session")) := by
  have hcf : strFalsy (some c) = false := by simp [strFalsy, hc]
  have hsf : strFalsy (some sid) = false := by simp [strFalsy, hsid]
  refine ⟨?_, ?_, ?_⟩
  · simp [TealAws.set_session_exe, hcf, hsf, tryExcept, Except.map,
      resolveName_session_teal]
  · simp [TealAws.getoutput, hsf, tryExcept, Except.map, resolveName_session_teal]
  · simp [TealAws.new, TealAws.newSetup, hcode, hc, hcompile, tryExcept, Except.map,
      resolveName_session_teal]

theorem C10_witness :
    TealAws.set_session_exe (some "s1") (some "prog") (.error .doesNotExist)
        (fun _ => .ok "bytes") (.ok ())
      = .error (.nameError "Session") ∧
    TealAws.getoutput (some "s1") (.error .doesNotExist)
      = .error (.nameError "Session") ∧
    TealAws.new Samples.newEventCode Samples.freshSession0 (fun _ => .ok "bytes")
        (.error .updateError) (fun _ => .ok Val.null) (.ok ())
        (fun _ => false) 0 false none
      = ({ Samples.freshSession0 with executable := some "bytes" },
         .error (.nameError "Session")) :=
  C10_session_unbound_raises_name_error "s1" "prog" (by decide) (by decide)
    .doesNotExist .updateError (fun _ => .ok "bytes") (.ok ()) "bytes" rfl
    Samples.freshSession0 (fun _ => .ok Val.null) (.ok ())
    (fun _ => false) 0 false none Samples.newEventCode rfl

/-- C3: in the `resume` entry point, an unhandled VM exception is written
(as its string form) to the thread's exception slot — other threads are
untouched — and the exception is re-raised to the dispatcher; without an
exception, `resume` returns a success object carrying `session_id`,
`vmid`, `finished` and `result`. -/
theorem C3_resume_exception_and_success
    (session : TealAws.Session) (vmid : Nat)
    (runOutcome : Except PyExc Unit) (m0 : TealAws.MachineData)
    (hm : session.machines[vmid]? = some m0) :
    (∀ exc, runOutcome = .error exc →
      (TealAws.resume session vmid runOutcome).2 = .error exc ∧
      (TealAws.resume session vmid runOutcome).1.machines[vmid]?
        = some ({ m0 with exception := some (pyStr exc) }) ∧
      ∀ j, j ≠ vmid →
        (TealAws.resume session vmid runOutcome).1.machines[j]?
          = session.machines[j]?) ∧
    (runOutcome = .ok () →
      TealAws.resume session vmid runOutcome =
        (session,
         .ok (TealAws.success 200
           [("session_id", Val.s session.session_id),
            ("vmid", Val.i vmid),
            ("finished", Val.b (TealAws.controllerFinished session)),
            ("result", valOfOpt (TealAws.controllerResult session))]))) := by
  constructor
  · rintro exc rfl
    have hlt : vmid < session.machines.length := (List.getElem?_eq_some_iff.mp hm).1
    refine ⟨rfl, ?_, ?_⟩
    · show (TealAws.setMachineException session vmid (pyStr exc)).machines[vmid]? = _
      simp [TealAws.setMachineException, hm, List.getElem?_set_self hlt]
    · intro j hj
      show (TealAws.setMachineException session vmid (pyStr exc)).machines[j]? = _
      simp [TealAws.setMachineException, hm, List.getElem?_set_ne (Ne.symm hj)]
  · rintro rfl
    rfl

theorem C3_witness :
    (∀ exc, (.error .doesNotExist : Except PyExc Unit) = .error exc →
      (TealAws.resume Samples.tealSession0 1 (.error .doesNotExist)).2 = .error exc ∧
      (TealAws.resume Samples.tealSession0 1 (.error .doesNotExist)).1.machines[1]?
        = some ({ fn_name := "g", args := [Val.i 1], stdout := "out1",
                  exception := some (pyStr exc) }) ∧
      ∀ j, j ≠ 1 →
        (TealAws.resume Samples.tealSession0 1 (.error .doesNotExist)).1.machines[j]?
          = Samples.tealSession0.machines[j]?) ∧
    ((.error .doesNotExist : Except PyExc Unit) = .ok () →
      TealAws.resume Samples.tealSession0 1 (.error .doesNotExist) =
        (Samples.tealSession0,
         .ok (TealAws.success 200
           [("session_id", Val.s Samples.tealSession0.session_id),
            ("vmid", Val.i 1),
            ("finished", Val.b (TealAws.controllerFinished Samples.tealSession0)),
            ("result", valOfOpt (TealAws.controllerResult Samples.tealSession0))]))) :=
  C3_resume_exception_and_success Samples.tealSession0 1 (.error .doesNotExist)
    { fn_name := "g", args := [Val.i 1], stdout := "out1", exception := some "boom" } rfl

/-- C6: for an existing session, `getoutput` returns a success whose
`output` is the list of the stdout buffers, one string per thread in
thread order, whose `exceptions` is the list of the exception slots, one
string-or-null entry per thread in the same order, and whose `events` is
empty; both lists have exactly as many entries as the session has
threads. -/
theorem C6_getoutput_shape (sid : String) (hsid : sid ≠ "")
    (session : TealAws.Session) :
    TealAws.getoutput (some sid) (.ok session)
      = .ok (TealAws.success 200
          [("output", Val.arr (session.machines.map fun m => Val.s m.stdout)),
           ("exceptions", Val.arr (session.machines.map fun m => valOfOptStr m.exception)),
           ("events", Val.arr [])]) ∧
    (session.machines.map fun m => Val.s m.stdout).length = session.machines.length ∧
    (session.machines.map fun m => valOfOptStr m.exception).length
      = session.machines.length ∧
    (∀ j : Nat, j < session.machines.length →
      ∃ m : TealAws.MachineData, session.machines[j]? = some m ∧
        (session.machines.map fun m => Val.s m.stdout)[j]? = some (Val.s m.stdout) ∧
        (session.machines.map fun m => valOfOptStr m.exception)[j]?
          = some (valOfOptStr m.exception)) ∧
    (∀ x ∈ session.machines.map fun m => Val.s m.stdout, ∃ t : String, x = Val.s t) ∧
    (∀ x ∈ session.machines.map fun m => valOfOptStr m.exception,
      x = Val.null ∨ ∃ t : String, x = Val.s t) := by
  have hsf : strFalsy (some sid) = false := by simp [strFalsy, hsid]
  refine ⟨?_, List.length_map _ _, List.length_map _ _, ?_, ?_, ?_⟩
  · simp [TealAws.getoutput, hsf, tryExcept, Except.map]
  · intro j hj
    refine ⟨session.machines[j], List.getElem?_eq_getElem hj, ?_, ?_⟩ <;>
      simp [List.getElem?_map, List.getElem?_eq_getElem hj]
  · intro x hx
    obtain ⟨m, _, rfl⟩ := List.mem_map.mp hx
    exact ⟨m.stdout, rfl⟩
  · intro x hx
    obtain ⟨m, _, rfl⟩ := List.mem_map.mp hx
    cases hexc : m.exception with
    | none => left; simp [valOfOptStr, hexc]
    | some t => right; exact ⟨t, by simp [valOfOptStr, hexc]⟩

theorem C6_witness :
    TealAws.getoutput (some "sid1") (.ok Samples.tealSession0)
      = .ok (TealAws.success 200
          [("output", Val.arr (Samples.tealSession0.machines.map fun m => Val.s m.stdout)),
           ("exceptions",
            Val.arr (Samples.tealSession0.machines.map fun m => valOfOptStr m.exception)),
           ("events", Val.arr [])]) ∧
    (Samples.tealSession0.machines.map fun m => Val.s m.stdout).length
      = Samples.tealSession0.machines.length ∧
    (Samples.tealSession0.machines.map fun m => valOfOptStr m.exception).length
      = Samples.tealSession0.machines.length ∧
    (∀ j : Nat, j < Samples.tealSession0.machines.length →
      ∃ m : TealAws.MachineData, Samples.tealSession0.machines[j]? = some m ∧
        (Samples.tealSession0.machines.map fun m => Val.s m.stdout)[j]?
          = some (Val.s m.stdout) ∧
        (Samples.tealSession0.machines.map fun m => valOfOptStr m.exception)[j]?
          = some (valOfOptStr m.exception)) ∧
    (∀ x ∈ Samples.tealSession0.machines.map fun m => Val.s m.stdout,
      ∃ t : String, x = Val.s t) ∧
    (∀ x ∈ Samples.tealSession0.machines.map fun m => valOfOptStr m.exception,
      x = Val.null ∨ ∃ t : String, x = Val.s t) :=
  C6_getoutput_shape "sid1" (by decide) Samples.tealSession0

/-- C4: when `new` is called with `wait_for_finish` and the top-level does
not finish before the wall-clock timeout, it returns the timeout failure
carrying the session id, and the session state it returns is exactly the
state at entry to the polling loop — the timeout path mutates nothing and
the session continues to exist. -/
theorem C4_timeout_leaves_session_unchanged
    (event : TealAws.NewEvent) (freshSession : TealAws.Session)
    (compileExe : String → Except PyExc String) (saveOutcome : Except PyExc Unit)
    (readExp : String → Except PyExc Val) (runOutcome : Except PyExc Unit)
    (finishedObs : Nat → Bool) (pollBudget : Nat)
    (finalFinished : Bool) (finalResult : Option Val)
    (s2 : TealAws.Session) (vmid : Nat)
    (hwff : event.wait_for_finish.getD true = true)
    (hsetup : TealAws.newSetup event freshSession compileExe saveOutcome readExp runOutcome
      = .inr (s2, vmid))
    (hloop : TealAws.waitLoop finishedObs 0 pollBudget = false) :
    TealAws.new event freshSession compileExe saveOutcome readExp runOutcome
        finishedObs pollBudget finalFinished finalResult
      = (s2, .ok (TealAws.fail "Timeout waiting for finish" 400
          [("session_id", Val.s s2.session_id)])) := by
  simp [TealAws.new, hsetup, TealAws.newFinishPhase, hwff, hloop]

theorem C4_witness :
    TealAws.new Samples.newEvent0 Samples.freshSession0 (fun _ => .ok "") (.ok ())
        (fun _ => .ok Val.null) (.ok ()) (fun _ => false) 0 true none
      = (Samples.freshSession0Run,
         .ok (TealAws.fail "Timeout waiting for finish" 400
           [("session_id", Val.s Samples.freshSession0Run.session_id)])) :=
  C4_timeout_leaves_session_unchanged Samples.newEvent0 Samples.freshSession0
    (fun _ => .ok "") (.ok ()) (fun _ => .ok Val.null) (.ok ())
    (fun _ => false) 0 true none Samples.freshSession0Run 0 rfl rfl rfl

theorem newRunPhase_inr_shape (session1 : TealAws.Session) (rawArgs : List String)
    ( fn : String) (readExp : String → Except PyExc Val) (runOutcome : Except PyExc Unit)
    (s2 : TealAws.Session) (vmid : Nat)
    (h : TealAws.newRunPhase session1 rawArgs fn readExp runOutcome = .inr (s2, vmid)) :
    ∃ args : List Val, rawArgs.mapM readExp = .ok args ∧
      s2 = (TealAws.dc_new_machine session1 args fn).1 ∧
      vmid = session1.machines.length := by
  simp only [TealAws.newRunPhase] at h
  rcases hargs : rawArgs.mapM readExp with e | args
  · simp only [hargs] at h
    simp at h
  · simp only [hargs] at h
    rcases hrun : runOutcome with e | u
    · simp only [hrun] at h
      simp at h
    · simp only [hrun] at h
      simp only [TealAws.dc_new_machine, Sum.inr.injEq, Prod.mk.injEq] at h
      obtain ⟨h1, h2⟩ := h
      subst h1
      subst h2
      exact ⟨args, rfl, rfl, rfl⟩

theorem newSetup_inr_shape
    (event : TealAws.NewEvent) (freshSession : TealAws.Session)
    (compileExe : String → Except PyExc String) (saveOutcome : Except PyExc Unit)
    (readExp : String → Except PyExc Val) (runOutcome : Except PyExc Unit)
    (s2 : TealAws.Session) (vmid : Nat)
    (hsetup : TealAws.newSetup event freshSession compileExe saveOutcome readExp runOutcome
      = .inr (s2, vmid)) :
    ∃ (s1 : TealAws.Session) (args : List Val),
      (event.args.getD []).mapM readExp = .ok args ∧
      s1.machines = freshSession.machines ∧
      s1.session_id = freshSession.session_id ∧
      s2 = (TealAws.dc_new_machine s1 args (event.function.getD "main")).1 ∧
      vmid = s1.machines.length := by
  simp only [TealAws.newSetup] at hsetup
  rcases hcode : event.code with _ | c
  · simp only [hcode] at hsetup
    obtain ⟨args, hargs, h1, h2⟩ := newRunPhase_inr_shape _ _ _ _ _ _ _ hsetup
    exact ⟨freshSession, args, hargs, rfl, rfl, h1, h2⟩
  · simp only [hcode] at hsetup
    by_cases hc0 : c = ""
    · rw [if_pos hc0] at hsetup
      obtain ⟨args, hargs, h1, h2⟩ := newRunPhase_inr_shape _ _ _ _ _ _ _ hsetup
      exact ⟨freshSession, args, hargs, rfl, rfl, h1, h2⟩
    · rw [if_neg hc0] at hsetup
      rcases hcomp : compileExe c with e | bytes
      · simp only [hcomp] at hsetup
        simp at hsetup
      · simp only [hcomp] at hsetup
        rcases hsave : saveOutcome with e | u
        · simp only [hsave, tryExcept, Except.map, resolveName_session_teal] at hsetup
          simp at hsetup
        · simp only [hsave, tryExcept, Except.map] at hsetup
          obtain ⟨args, hargs, h1, h2⟩ := newRunPhase_inr_shape _ _ _ _ _ _ _ hsetup
          exact ⟨{ freshSession with executable := some bytes }, args, hargs, rfl, rfl,
            h1, h2⟩

/-- C8 (amended): every successful `new` call returns a body with exactly
the keys `session_id`, `vmid` (the code uses `vmid`, not `thread_id`),
`finished`, and `result` (the result key is always present, holding the
controller result, null while unfinished); the entry function defaults to
`main` and the arguments default to the empty list when omitted. -/
theorem C8_new_success_shape
    (event : TealAws.NewEvent) (freshSession : TealAws.Session)
    (compileExe : String → Except PyExc String) (saveOutcome : Except PyExc Unit)
    (readExp : String → Except PyExc Val) (runOutcome : Except PyExc Unit)
    (finishedObs : Nat → Bool) (pollBudget : Nat)
    (finalFinished : Bool) (finalResult : Option Val)
    (s2 : TealAws.Session) (vmid : Nat)
    (hsetup : TealAws.newSetup event freshSession compileExe saveOutcome readExp runOutcome
      = .inr (s2, vmid))
    (hdone : event.wait_for_finish.getD true = false
      ∨ TealAws.waitLoop finishedObs 0 pollBudget = true) :
    TealAws.new event freshSession compileExe saveOutcome readExp runOutcome
        finishedObs pollBudget finalFinished finalResult
      = (s2, .ok (TealAws.success 200
          [("session_id", Val.s s2.session_id),
           ("vmid", Val.i vmid),
           ("finished", Val.b finalFinished),
           ("result", valOfOpt finalResult)])) ∧
    ∃ m : TealAws.MachineData, s2.machines[vmid]? = some m ∧
      (event.function = none → m.fn_name = "main") ∧
      (event.args = none → m.args = []) := by
  constructor
  · rcases hdone with h | h
    · simp [TealAws.new, hsetup, TealAws.newFinishPhase, h]
    · cases hwf : event.wait_for_finish.getD true <;>
        simp [TealAws.new, hsetup, TealAws.newFinishPhase, hwf, h]
  · obtain ⟨s1, args, hargs, hmach, hsid, hs2, hvmid⟩ :=
      newSetup_inr_shape _ _ _ _ _ _ _ _ hsetup
    subst hs2
    subst hvmid
    refine ⟨{ fn_name := event.function.getD "main", args := args, stdout := "",
              exception := none }, ?_, ?_, ?_⟩
    · show (s1.machines ++ [_])[s1.machines.length]? = _
      exact List.getElem?_concat_length _ _
    · intro hfn
      simp [hfn]
    · intro hargsnone
      rw [hargsnone] at hargs
      simp only [Option.getD_none, List.mapM_nil, pure, Except.pure] at hargs
      injection hargs with hargs
      show args = []
      exact hargs.symm

theorem C8_witness :
    (TealAws.new Samples.newEvent0 Samples.freshSession0 (fun _ => .ok "") (.ok ())
        (fun _ => .ok Val.null) (.ok ()) (fun _ => true) 0 true none
      = (Samples.freshSession0Run, .ok (TealAws.success 200
          [("session_id", Val.s Samples.freshSession0Run.session_id),
           ("vmid", Val.i 0),
           ("finished", Val.b true),
           ("result", valOfOpt none)]))) ∧
    ∃ m : TealAws.MachineData, Samples.freshSession0Run.machines[0]? = some m ∧
      (Samples.newEvent0.function = none → m.fn_name = "main") ∧
      (Samples.newEvent0.args = none → m.args = []) :=
  C8_new_success_shape Samples.newEvent0 Samples.freshSession0 (fun _ => .ok "") (.ok ())
    (fun _ => .ok Val.null) (.ok ()) (fun _ => true) 0 true none
    Samples.freshSession0Run 0 rfl (Or.inr rfl)

/-- C8 counterexample: at a concrete successful call, the response body
keys are `session_id`, `vmid`, `finished`, `result` — the key
`thread_id` claimed by the spec does not occur. -/
theorem C8_counterexample_no_thread_id_key :
    TealAws.respKeys (TealAws.new Samples.newEvent0 Samples.freshSession0
        (fun _ => .ok "") (.ok ()) (fun _ => .ok Val.null) (.ok ())
        (fun _ => true) 0 true none).2
      = ["session_id", "vmid", "finished", "result"] ∧
    "thread_id" ∉ TealAws.respKeys (TealAws.new Samples.newEvent0 Samples.freshSession0
        (fun _ => .ok "") (.ok ()) (fun _ => .ok Val.null) (.ok ())
        (fun _ => true) 0 true none).2 := by
  constructor
  · rfl
  · decide

/-- C1: with future `fid` present and machine `mid` owning a data-stack
slot at `off`, `get_or_wait` — a single atomic step, since the whole
method body runs under the session lock — returns `(true, value)` and
leaves the state unchanged when the future is resolved (and the returned
value agrees with any successful walk of the chain of forward pointers,
under the chain-consistency invariant), and otherwise appends the
`(mid, off)` continuation to the future and returns `(false, none)`.
No interleaving with an atomic successful `resolve` loses the waiter:
if `get_or_wait` runs first, the subsequent resolve writes the value at
`off` and dispatches `mid`; if `resolve` runs first, `get_or_wait`
returns `(true, value)`. -/
theorem C1_get_or_wait_no_lost_waiter
    (s : C9c.SessionData) (mid fid off : Nat)
    (f : C9c.FutureMap) (m : C9c.MachineMap)
    (hf : s.futures[fid]? = some f)
    (hm : s.machines[mid]? = some m)
    (hoff : off < m.state.ds.length) :
    (f.resolved = true →
      C9c.get_or_wait s mid fid off = ((true, f.value), s) ∧
      (C9c.chainConsistent s → ∀ (fuel : Nat) (w : Val),
        C9c.chainWalk s fid fuel = some w → f.value = some w)) ∧
    (f.resolved = false →
      (C9c.get_or_wait s mid fid off).1 = (false, none) ∧
      (C9c.get_or_wait s mid fid off).2.futures[fid]?
        = some { f with continuations := f.continuations ++ [⟨mid, off⟩] }) ∧
    (f.resolved = false →
      ∀ (v : Val) (fuel : Nat) (s' : C9c.SessionData) (d : List Nat),
        (C9c.resolve fuel ((C9c.get_or_wait s mid fid off).2) fid v = .ok (s', d) →
          C9c.waiterServed s' mid off v ∧ mid ∈ d) ∧
        (C9c.resolve fuel s fid v = .ok (s', d) →
          C9c.get_or_wait s' mid fid off = ((true, some v), s'))) := by
  have hlt : fid < s.futures.length := (List.getElem?_eq_some_iff.mp hf).1
  refine ⟨?_, ?_, ?_⟩
  · intro hres
    constructor
    · simp [C9c.get_or_wait, hf, hres]
    · intro hcc fuel w hw
      exact C9c.chainWalk_agrees hcc fuel fid f w hf hres hw
  · intro hres
    constructor
    · simp [C9c.get_or_wait, hf, hres]
    · simp only [C9c.get_or_wait, hf, hres]
      simp [List.getElem?_set_self hlt]
  · intro hres v fuel s' d
    constructor
    · intro hok
      simp only [C9c.resolve] at hok
      have hgw2 : (C9c.get_or_wait s mid fid off).2.futures[fid]?
          = some { f with continuations := f.continuations ++ [⟨mid, off⟩] } := by
        simp only [C9c.get_or_wait, hf, hres]
        simp [List.getElem?_set_self hlt]
      refine C9c.resolve_serves_waiter v fuel _ fid s' d _ mid off hgw2 ?_ ?_ hok
      · exact List.mem_append_right _ (List.mem_singleton.mpr rfl)
      · refine ⟨m, ?_, hoff⟩
        simp only [C9c.get_or_wait, hf, hres]
        exact hm
    · intro hok
      simp only [C9c.resolve] at hok
      obtain ⟨g, hg, hgres, hgval⟩ :=
        C9c.chain_resolve_establishes_resolvedWith v fuel false s fid s' d hok
      simp [C9c.get_or_wait, hg, hgres, hgval]

theorem C1_witness :
    (C9c.waiterServed Samples.c9sResolved 0 0 (Val.i 7) ∧ (0 : Nat) ∈ [0]) ∧
    C9c.get_or_wait Samples.c9sResolvedNoWait 0 0 0
      = ((true, some (Val.i 7)), Samples.c9sResolvedNoWait) := by
  have h := C1_get_or_wait_no_lost_waiter Samples.c9s 0 0 0 Samples.c9fut Samples.c9mach
    rfl rfl (by decide)
  constructor
  · exact (h.2.2 rfl (Val.i 7) 1 Samples.c9sResolved [0]).1 rfl
  · exact (h.2.2 rfl (Val.i 7) 1 Samples.c9sResolvedNoWait []).2 rfl

/-- C2: when future `fid` resolves with value `v`, every continuation
`(tid, off)` recorded on it is scheduled: the controller writes `v` into
that thread's data stack at exactly the recorded offset, sets its stopped
flag to false, and dispatches the thread asynchronously (its id appears
in the dispatch list). -/
theorem C2_resolve_schedules_each_continuation
    (s : C9c.SessionData) (fid : Nat) (f : C9c.FutureMap) (v : Val)
    (tid off : Nat) (m : C9c.MachineMap)
    (fuel : Nat) (s' : C9c.SessionData) (d : List Nat)
    (hf : s.futures[fid]? = some f)
    (hmem : (⟨tid, off⟩ : C9c.ContinuationMap) ∈ f.continuations)
    (hm : s.machines[tid]? = some m)
    (hoff : off < m.state.ds.length)
    (hok : C9c.resolve fuel s fid v = .ok (s', d)) :
    ∃ m' : C9c.MachineMap, s'.machines[tid]? = some m' ∧
      m'.state.ds[off]? = some v ∧
      m'.state.stopped = false ∧
      tid ∈ d := by
  simp only [C9c.resolve] at hok
  obtain ⟨⟨m', h1, h2, h3⟩, h4⟩ :=
    C9c.resolve_serves_waiter v fuel s fid s' d f tid off hf hmem ⟨m, hm, hoff⟩ hok
  exact ⟨m', h1, h2, h3, h4⟩

theorem C2_witness :
    ∃ m' : C9c.MachineMap, Samples.c9sResolved.machines[0]? = some m' ∧
      m'.state.ds[0]? = some (Val.i 7) ∧
      m'.state.stopped = false ∧
      (0 : Nat) ∈ [0] :=
  C2_resolve_schedules_each_continuation Samples.c9sWaiting 0 Samples.c9futWaiting
    (Val.i 7) 0 0 Samples.c9mach 1 Samples.c9sResolved [0]
    rfl (List.mem_singleton.mpr rfl) rfl (by decide) rfl
